import Mathlib

/-!
Shallow embedding of the bet-resolution and bet/wager-creation logic of the
mchacks React-Native client, together with theorems settling the claims
about it.

Data model: `src/types/index.ts`.
Resolution submission: `handleSubmit` in the `BetResolutionModal` of
`src/unnamed/part_001` (the variant with the commissioner path).
Pot computation and wager placement: `loadBets` / `handlePlaceWager` in
`src/screens/LeagueChatScreen.tsx`.
Stake validation at bet creation: `handleSubmit` in the create-bet screens
of `src/unnamed/part_007` and `src/unnamed/part_008`.

JavaScript `string | undefined` values are modelled as `Option String`,
`boolean | undefined` as `Option Bool`, and JavaScript numbers as `ℚ`
(the client never relies on float rounding in the embedded code paths).
Truthiness of an optional string (`!commissionerId`) and the `x || y`
idiom are modelled explicitly below.
-/

namespace Mchacks

/-- Bet types, from `BetType` in `src/types/index.ts`. -/
inductive BetType where
  | moneyline
  | nWayMoneyline
  | targetProximity
deriving DecidableEq, Repr

/-- Bet status, from `Bet.status` in `src/types/index.ts`. -/
inductive BetStatus where
  | open_
  | closed
  | resolved
  | disputed
deriving DecidableEq, Repr

/-- The fields of `Bet` (src/types/index.ts) that the embedded logic reads. -/
structure Bet where
  id : String
  creator_id : String
  type : BetType
  options : List String
  stake : ℚ
  status : BetStatus
deriving DecidableEq, Repr

/-- Wager status, from `Wager.status` in `src/types/index.ts`. -/
inductive WagerStatus where
  | pending
  | won
  | lost
deriving DecidableEq, Repr

/-- The fields of `Wager` (src/types/index.ts) that the embedded logic reads. -/
structure Wager where
  id : String
  bet_id : String
  user_id : String
  selection : String
  stake : ℚ
  payout : Option ℚ
  status : WagerStatus
deriving DecidableEq, Repr

/-- Resolution modes appearing in the resolve request of
`src/unnamed/part_001` (`"commissioner_override"` or `"manual"`). -/
inductive ResolutionMode where
  | manual
  | commissioner_override
deriving DecidableEq, Repr

/-- The body passed to `resolveBet(bet.id, ...)` in
`src/unnamed/part_001` lines 137–143.  `winner` is an `Option` because the
JavaScript `winner` variable can end up `undefined` when
`bet.options[0]` is read on an empty options list. -/
structure ResolveRequest where
  winner : Option String
  mode : ResolutionMode
  did_hit : Option Bool
  is_finished : Bool
  note : Option String
deriving DecidableEq, Repr

/-- JavaScript truthiness of an optional string: `undefined` and `""` are
falsy, every other string is truthy. -/
def jsTruthyStr (s : Option String) : Bool :=
  match s with
  | some t => !(t = "")
  | none => false

/-- The JavaScript `a || b` idiom on optional strings, as used in
`otherOption || bet.options[0]` (src/unnamed/part_001 line 127):
if `a` holds a truthy string it is kept, otherwise `b` is used. -/
def jsOrElse (a b : Option String) : Option String :=
  match a with
  | some s => if s = "" then b else some s
  | none => b

/-- JavaScript `String.prototype.trim()`: strip leading and trailing
whitespace.  Modelled on the string's character list so that it is
kernel-reducible (the library `String.trim` is not). -/
def jsTrim (s : String) : String :=
  ⟨((s.data.dropWhile Char.isWhitespace).reverse.dropWhile Char.isWhitespace).reverse⟩

/-- The component state of the `BetResolutionModal` in
`src/unnamed/part_001` at the moment `handleSubmit` runs, plus the
`isCommissioner` / `commissionerId` props. -/
structure ModalState where
  isCommissioner : Bool
  commissionerId : Option String
  commissionerWager : Option Wager
  selectedWinner : String
  didHit : Option Bool
  isFinished : Bool
  useCommissionerOverride : Bool
  targetResult : String
  note : String
deriving DecidableEq, Repr

/-- The early-return validation of `handleSubmit`
(src/unnamed/part_001 lines 67–97).  `true` means no `Alert`+`return`
fired.  Commissioner path: `commissionerId` truthy, `didHit` defined,
`commissionerWager` present.  Creator path: either `isFinished` or
`didHit` defined; a finished non-target-proximity bet needs a selected
winner; a finished target-proximity bet needs a non-blank target result. -/
def validationPasses (bet : Bet) (st : ModalState) : Bool :=
  if st.isCommissioner then
    jsTruthyStr st.commissionerId && st.didHit.isSome && st.commissionerWager.isSome
  else
    (st.isFinished || st.didHit.isSome) &&
    !(st.isFinished && !(bet.type = .targetProximity) && st.selectedWinner = "") &&
    !(st.isFinished && bet.type = .targetProximity && jsTrim st.targetResult = "")

/-- The winner computation of `handleSubmit`
(src/unnamed/part_001 lines 105–135).  The outer `Option` is `none` for
the late validation failure (commissioner, target-proximity, miss, blank
target result: lines 113–117); the inner `Option String` is the JavaScript
`winner` value (`none` = `undefined`). -/
def computeWinner (bet : Bet) (st : ModalState) : Option (Option String) :=
  match st.isCommissioner, st.commissionerWager with
  | true, some w =>
    if bet.type = .targetProximity then
      if st.didHit = some true then
        some (some w.selection)
      else if jsTrim st.targetResult = "" then
        none
      else
        some (some (jsTrim st.targetResult))
    else
      if st.didHit = some true then
        some (some w.selection)
      else
        some (jsOrElse (bet.options.find? (fun opt => !(opt = w.selection)))
          bet.options.head?)
  | _, _ =>
    some (some (if bet.type = .targetProximity then jsTrim st.targetResult
      else st.selectedWinner))

/-- `handleSubmit` of the `BetResolutionModal` in `src/unnamed/part_001`
(lines 66–154), as the resolve request it passes to `resolveBet`, or
`none` when an early return fires and no request is sent. -/
def handleSubmit (bet : Bet) (st : ModalState) : Option ResolveRequest :=
  if validationPasses bet st then
    match computeWinner bet st with
    | none => none
    | some winner =>
      some { winner := winner
             mode := if st.useCommissionerOverride && st.isCommissioner then
                 ResolutionMode.commissioner_override
               else ResolutionMode.manual
             did_hit := st.didHit
             is_finished := st.isFinished || st.isCommissioner
             note := if jsTrim st.note = "" then none else some (jsTrim st.note) }
  else
    none

/-- One resolution-submission step seen from the client: `handleSubmit`
never mutates the bet or the wager list (the only effect is the request
handed to `resolveBet`), so the local state is returned unchanged next to
the request that was (or was not) sent. -/
def submitStep (bet : Bet) (wagers : List Wager) (st : ModalState) :
    Bet × List Wager × Option ResolveRequest :=
  (bet, wagers, handleSubmit bet st)

/-- The stake validation of `handleSubmit` in the create-bet screen of
`src/unnamed/part_007` (lines 1082–1092) on an already-parsed stake:
reject when `stakeAmount <= 0`, then when `stakeAmount > 25`
("Maximum stake allowed is $25"), then when a profile is loaded and
`stakeAmount > profile.current_balance`.  `balance` is
`profile?.current_balance` (`none` when no profile is loaded, in which
case the balance check is skipped, as in the source). -/
def stakeValid_part007 (stakeAmount : ℚ) (balance : Option ℚ) : Bool :=
  if stakeAmount ≤ 0 then false
  else if stakeAmount > 25 then false
  else
    match balance with
    | some b => !(stakeAmount > b)
    | none => true

/-- The stake validation of `handleSubmit` in the create-bet screen of
`src/unnamed/part_008` (lines 106–116): reject when `stakeAmount <= 0`,
then when `stakeAmount >= 25` ("Maximum stake allowed is 25 units"),
then when `stakeAmount > user?.currentBalance` (a comparison with
`undefined` is false in JavaScript, so a missing balance skips the check). -/
def stakeValid_part008 (stakeAmount : ℚ) (balance : Option ℚ) : Bool :=
  if stakeAmount ≤ 0 then false
  else if stakeAmount ≥ 25 then false
  else
    match balance with
    | some b => !(stakeAmount > b)
    | none => true

/-- The pot computation of `loadBets` in `src/screens/LeagueChatScreen.tsx`
(lines 111–115): fold over the wager list, adding each wager's stake under
its `bet_id`; a key that was never written reads as `0`, matching both the
`(potMap[wager.bet_id] || 0)` during construction and the
`betPotAmounts[item.bet.id] || 0` at display (line 286). -/
def buildPotMap (wagers : List Wager) : String → ℚ :=
  wagers.foldl
    (fun potMap w => fun k => if k = w.bet_id then potMap w.bet_id + w.stake else potMap k)
    (fun _ => 0)

/-- The body passed to `createWager` in `handlePlaceWager`
(src/screens/LeagueChatScreen.tsx lines 213–218). -/
structure CreateWagerRequest where
  bet_id : String
  selection : String
  stake : ℚ
deriving DecidableEq, Repr

/-- `handlePlaceWager` of `src/screens/LeagueChatScreen.tsx`
(lines 203–233): returns the create-wager request it sends, or `none` when
no bet or no option is selected.  The stake is read from the selected bet
(line 210, "Use the exact stake amount from the bet"); the user supplies
only the option. -/
def handlePlaceWager (selectedBet : Option Bet) (selectedOption : String) :
    Option CreateWagerRequest :=
  match selectedBet with
  | none => none
  | some bet =>
    if selectedOption = "" then none
    else some { bet_id := bet.id, selection := selectedOption, stake := bet.stake }

/-! ### Concrete instances used by witnesses and counterexamples -/

/-- A pending commissioner wager on bet `b1`, selection `"A"`. -/
def wC1 : Wager :=
  { id := "w1", bet_id := "b1", user_id := "comm", selection := "A",
    stake := 5, payout := none, status := .pending }

/-- A two-option moneyline bet. -/
def betC1 : Bet :=
  { id := "b1", creator_id := "u1", type := .moneyline,
    options := ["A", "B"], stake := 5, status := .open_ }

/-- Commissioner modal state with `didHit = true`. -/
def stC1 : ModalState :=
  { isCommissioner := true, commissionerId := some "comm",
    commissionerWager := some wC1, selectedWinner := "",
    didHit := some true, isFinished := false,
    useCommissionerOverride := true, targetResult := "", note := "" }

/-- The request `handleSubmit betC1 stC1` sends. -/
def reqC1 : ResolveRequest :=
  { winner := some "A", mode := .commissioner_override,
    did_hit := some true, is_finished := true, note := none }

/-- Commissioner modal state with no located commissioner wager. -/
def stC3 : ModalState :=
  { isCommissioner := true, commissionerId := some "comm",
    commissionerWager := none, selectedWinner := "",
    didHit := some true, isFinished := false,
    useCommissionerOverride := false, targetResult := "", note := "" }

/-- Creator modal state: bet marked finished, no winner selected. -/
def stC4 : ModalState :=
  { isCommissioner := false, commissionerId := none,
    commissionerWager := none, selectedWinner := "",
    didHit := some true, isFinished := true,
    useCommissionerOverride := false, targetResult := "", note := "" }

/-! ### Theorems for the claims -/

/-- C1: for every bet resolved by a commissioner with a located
commissioner wager and `did_hit == true`, the winner submitted in the
resolution request equals the commissioner's own wager selection, for
every bet type. -/
theorem commissioner_hit_uses_own_selection
    (bet : Bet) (st : ModalState) (w : Wager) (req : ResolveRequest)
    (hc : st.isCommissioner = true)
    (hw : st.commissionerWager = some w)
    (hd : st.didHit = some true)
    (hr : handleSubmit bet st = some req) :
    req.winner = some w.selection := by
  simp only [handleSubmit, computeWinner, hc, hw, hd] at hr
  by_cases hv : validationPasses bet st = true
  · rw [if_pos hv] at hr
    by_cases ht : bet.type = BetType.targetProximity <;>
      simp only [ht, if_true, if_false, ite_self] at hr <;>
      rw [← Option.some.inj hr]
  · rw [if_neg hv] at hr
    exact absurd hr (by simp)

/-- Witness for C1 at a concrete commissioner hit. -/
theorem commissioner_hit_uses_own_selection_witness :
    stC1.isCommissioner = true ∧ stC1.commissionerWager = some wC1 ∧
    stC1.didHit = some true ∧ handleSubmit betC1 stC1 = some reqC1 ∧
    reqC1.winner = some wC1.selection :=
  ⟨rfl, rfl, rfl, by decide,
    commissioner_hit_uses_own_selection betC1 stC1 wC1 reqC1 rfl rfl rfl (by decide)⟩

/-- C3: when the requester is the commissioner and no wager of theirs is
located on the bet, `handleSubmit` returns before `resolveBet` is called:
no resolve request is sent and the bet and wager list are unchanged. -/
theorem commissioner_without_wager_fails
    (bet : Bet) (wagers : List Wager) (st : ModalState)
    (hc : st.isCommissioner = true)
    (hw : st.commissionerWager = none) :
    submitStep bet wagers st = (bet, wagers, none) := by
  simp [submitStep, handleSubmit, validationPasses, hc, hw]

/-- Witness for C3 at a concrete commissioner state with no located wager. -/
theorem commissioner_without_wager_fails_witness :
    stC3.isCommissioner = true ∧ stC3.commissionerWager = none ∧
    submitStep betC1 [] stC3 = (betC1, [], none) :=
  ⟨rfl, rfl, commissioner_without_wager_fails betC1 [] stC3 rfl rfl⟩

/-- C4: a creator-initiated resolution of a moneyline or n-way-moneyline
bet marked finished with no selected winner fails validation: no request
is sent, the bet and wager list are unchanged. -/
theorem creator_finished_without_winner_fails
    (bet : Bet) (wagers : List Wager) (st : ModalState)
    (hc : st.isCommissioner = false)
    (ht : bet.type = .moneyline ∨ bet.type = .nWayMoneyline)
    (hf : st.isFinished = true)
    (hs : st.selectedWinner = "") :
    submitStep bet wagers st = (bet, wagers, none) := by
  have ht' : ¬(bet.type = .targetProximity) := by
    rcases ht with h | h <;> simp [h]
  simp [submitStep, handleSubmit, validationPasses, hc, hf, hs, ht']

/-- Witness for C4 at a concrete creator state. -/
theorem creator_finished_without_winner_fails_witness :
    stC4.isCommissioner = false ∧ betC1.type = .moneyline ∧
    stC4.isFinished = true ∧ stC4.selectedWinner = "" ∧
    submitStep betC1 [] stC4 = (betC1, [], none) :=
  ⟨rfl, rfl, rfl, rfl,
    creator_finished_without_winner_fails betC1 [] stC4 rfl (Or.inl rfl) rfl rfl⟩

/-- C8: every create-wager request produced by `handlePlaceWager` carries
exactly the parent bet's stake (and its id); the caller supplies only the
selected option, never a stake. -/
theorem placed_wager_stake_equals_bet_stake
    (b : Bet) (selectedOption : String) (req : CreateWagerRequest)
    (hr : handlePlaceWager (some b) selectedOption = some req) :
    req.stake = b.stake ∧ req.bet_id = b.id := by
  unfold handlePlaceWager at hr
  split_ifs at hr
  exact ⟨by rw [← Option.some.inj hr], by rw [← Option.some.inj hr]⟩

/-- The request `handlePlaceWager (some betC1) "A"` sends. -/
def reqC8 : CreateWagerRequest :=
  { bet_id := "b1", selection := "A", stake := 5 }

/-- Witness for C8 at a concrete wager placement. -/
theorem placed_wager_stake_equals_bet_stake_witness :
    handlePlaceWager (some betC1) "A" = some reqC8 ∧
    reqC8.stake = betC1.stake ∧ reqC8.bet_id = betC1.id :=
  ⟨by decide, placed_wager_stake_equals_bet_stake betC1 "A" reqC8 (by decide)⟩

/-- C9: every request that `handleSubmit` sends has
`is_finished = isFinished || isCommissioner`: a commissioner-submitted
request carries `is_finished = true` regardless of the toggle, a
creator-submitted request carries the toggle's value. -/
theorem is_finished_flag_of_request
    (bet : Bet) (st : ModalState) (req : ResolveRequest)
    (hr : handleSubmit bet st = some req) :
    (st.isCommissioner = true → req.is_finished = true) ∧
    (st.isCommissioner = false → req.is_finished = st.isFinished) := by
  unfold handleSubmit at hr
  by_cases hv : validationPasses bet st = true
  · rw [if_pos hv] at hr
    rcases h : computeWinner bet st with _ | winner <;> rw [h] at hr
    · exact absurd hr (by simp)
    · have hfin : req.is_finished = (st.isFinished || st.isCommissioner) := by
        rw [← Option.some.inj hr]
      refine ⟨fun hc => ?_, fun hc => ?_⟩
      · rw [hfin, hc, Bool.or_true]
      · rw [hfin, hc, Bool.or_false]
  · rw [if_neg hv] at hr
    exact absurd hr (by simp)

/-- Witness for C9 at a concrete commissioner submission whose toggle is
off: the sent request still carries `is_finished = true`. -/
theorem is_finished_flag_of_request_witness :
    handleSubmit betC1 stC1 = some reqC1 ∧ stC1.isFinished = false ∧
    stC1.isCommissioner = true ∧ reqC1.is_finished = true :=
  ⟨by decide, rfl, rfl,
    (is_finished_flag_of_request betC1 stC1 reqC1 (by decide)).1 rfl⟩

/-- Helper: when validation passes and the winner computation yields a
value, the request sent by `handleSubmit` carries exactly that winner. -/
theorem handleSubmit_winner_eq
    (bet : Bet) (st : ModalState) (req : ResolveRequest) (w : Option String)
    (hv : validationPasses bet st = true)
    (hcw : computeWinner bet st = some w)
    (hr : handleSubmit bet st = some req) :
    req.winner = w := by
  unfold handleSubmit at hr
  rw [if_pos hv, hcw] at hr
  rw [← Option.some.inj hr]

/-- C2 (amended): in a commissioner miss (`did_hit == false`) on a
moneyline or n-way-moneyline bet, provided every option is non-empty and
at least one option differs from the commissioner's wager selection, the
submitted winner is an option of the bet other than that selection. -/
theorem commissioner_miss_picks_other_option
    (bet : Bet) (st : ModalState) (w : Wager) (req : ResolveRequest)
    (hc : st.isCommissioner = true)
    (hw : st.commissionerWager = some w)
    (hd : st.didHit = some false)
    (ht : ¬(bet.type = BetType.targetProximity))
    (hopts : ∀ o ∈ bet.options, ¬(o = ""))
    (hex : ∃ o ∈ bet.options, ¬(o = w.selection))
    (hr : handleSubmit bet st = some req) :
    ∃ o ∈ bet.options, ¬(o = w.selection) ∧ req.winner = some o := by
  rcases hfind : bet.options.find? (fun opt => !(opt = w.selection)) with _ | o₀
  · exfalso
    rw [List.find?_eq_none] at hfind
    obtain ⟨o, ho, hne⟩ := hex
    have hfo := hfind o ho
    simp at hfo
    exact hne hfo
  · have hmem : o₀ ∈ bet.options := List.mem_of_find?_eq_some hfind
    have hpred : ¬(o₀ = w.selection) := by
      have hp := List.find?_some hfind
      simpa using hp
    have hne : ¬(o₀ = "") := hopts o₀ hmem
    have hv : validationPasses bet st = true := by
      by_contra hv
      simp [handleSubmit, hv] at hr
    have hcw : computeWinner bet st = some (some o₀) := by
      simp [computeWinner, hc, hw, hd, ht, hfind, jsOrElse, hne]
    exact ⟨o₀, hmem, hpred, handleSubmit_winner_eq bet st req (some o₀) hv hcw hr⟩

/-- A pending commissioner wager on the one-option bet `betC2`. -/
def wC2 : Wager :=
  { id := "w2", bet_id := "b2", user_id := "comm", selection := "A",
    stake := 5, payout := none, status := .pending }

/-- A moneyline bet whose options list holds no option other than the
commissioner's selection. -/
def betC2 : Bet :=
  { id := "b2", creator_id := "u1", type := .moneyline,
    options := ["A"], stake := 5, status := .open_ }

/-- Commissioner modal state with `didHit = false` on `betC2`. -/
def stC2 : ModalState :=
  { isCommissioner := true, commissionerId := some "comm",
    commissionerWager := some wC2, selectedWinner := "",
    didHit := some false, isFinished := false,
    useCommissionerOverride := false, targetResult := "", note := "" }

/-- The request `handleSubmit betC2 stC2` sends. -/
def reqC2 : ResolveRequest :=
  { winner := some "A", mode := .manual,
    did_hit := some false, is_finished := true, note := none }

/-- Counterexample to C2 as stated: on a commissioner miss where the
options list is `["A"]` and the commissioner's own selection is `"A"`,
a request IS sent and its winner is `"A"` — the commissioner's own
selection, not an option other than it. -/
theorem commissioner_miss_picks_other_option_counterexample :
    handleSubmit betC2 stC2 = some reqC2 ∧ reqC2.winner = some wC2.selection := by
  constructor <;> decide

/-- Commissioner modal state with `didHit = false`, used on the
two-option bet `betC1`. -/
def stC2b : ModalState :=
  { isCommissioner := true, commissionerId := some "comm",
    commissionerWager := some wC2, selectedWinner := "",
    didHit := some false, isFinished := false,
    useCommissionerOverride := false, targetResult := "", note := "" }

/-- The request `handleSubmit betC1 stC2b` sends. -/
def reqC2b : ResolveRequest :=
  { winner := some "B", mode := .manual,
    did_hit := some false, is_finished := true, note := none }

/-- Witness for the amended C2 at a concrete two-option miss. -/
theorem commissioner_miss_picks_other_option_witness :
    handleSubmit betC1 stC2b = some reqC2b ∧
    "B" ∈ betC1.options ∧ ¬("B" = wC2.selection) ∧ reqC2b.winner = some "B" := by
  have he : handleSubmit betC1 stC2b = some reqC2b := by decide
  obtain ⟨o, hmem, hne, hwin⟩ :=
    commissioner_miss_picks_other_option betC1 stC2b wC2 reqC2b rfl rfl rfl
      (by decide) (by decide) ⟨"B", by decide, by decide⟩ he
  have ho : o = "B" := by
    have : some o = some "B" := by rw [← hwin]; decide
    exact Option.some.inj this
  subst ho
  exact ⟨he, hmem, hne, hwin⟩

/-- C5 (amended): a creator resolution of a target-proximity bet marked
finished with a blank target result, and a commissioner resolution of a
target-proximity bet with `did_hit == false` and a blank target result,
both fail: no request is sent and the bet and wager list are unchanged. -/
theorem target_miss_without_outcome_fails
    (bet : Bet) (wagers : List Wager) (st : ModalState)
    (ht : bet.type = BetType.targetProximity)
    (hmiss : (st.isCommissioner = false ∧ st.isFinished = true) ∨
             (st.isCommissioner = true ∧ st.didHit = some false))
    (hempty : jsTrim st.targetResult = "") :
    submitStep bet wagers st = (bet, wagers, none) := by
  rcases hmiss with ⟨hc, hf⟩ | ⟨hc, hd⟩
  · simp [submitStep, handleSubmit, validationPasses, hc, hf, ht, hempty]
  · rcases hw : st.commissionerWager with _ | w
    · simp [submitStep, handleSubmit, validationPasses, hc, hw]
    · simp [submitStep, handleSubmit, validationPasses, computeWinner,
        hc, hd, hw, ht, hempty]

/-- A target-proximity bet. -/
def betC5 : Bet :=
  { id := "b5", creator_id := "u1", type := .targetProximity,
    options := ["100"], stake := 5, status := .open_ }

/-- Creator modal state: not finished, `didHit = false`, blank target
result. -/
def stC5 : ModalState :=
  { isCommissioner := false, commissionerId := none,
    commissionerWager := none, selectedWinner := "",
    didHit := some false, isFinished := false,
    useCommissionerOverride := false, targetResult := "", note := "" }

/-- The request `handleSubmit betC5 stC5` sends. -/
def reqC5 : ResolveRequest :=
  { winner := some "", mode := .manual,
    did_hit := some false, is_finished := false, note := none }

/-- Counterexample to C5 as stated: a creator resolution of a
target-proximity bet with `did_hit == false` (a miss), not marked
finished, and a blank target result passes validation — a request IS sent,
carrying the empty string as winner. -/
theorem target_miss_without_outcome_fails_counterexample :
    handleSubmit betC5 stC5 = some reqC5 ∧
    stC5.didHit = some false ∧ jsTrim stC5.targetResult = "" := by
  refine ⟨by decide, rfl, by decide⟩

/-- Commissioner modal state: `didHit = false`, blank target result. -/
def stC5b : ModalState :=
  { isCommissioner := true, commissionerId := some "comm",
    commissionerWager := some wC2, selectedWinner := "",
    didHit := some false, isFinished := false,
    useCommissionerOverride := false, targetResult := "  ", note := "" }

/-- Witness for the amended C5 at a concrete commissioner miss with a
blank (whitespace-only) target result. -/
theorem target_miss_without_outcome_fails_witness :
    betC5.type = BetType.targetProximity ∧
    stC5b.isCommissioner = true ∧ stC5b.didHit = some false ∧
    jsTrim stC5b.targetResult = "" ∧
    submitStep betC5 [] stC5b = (betC5, [], none) :=
  ⟨rfl, rfl, rfl, by decide,
    target_miss_without_outcome_fails betC5 [] stC5b rfl (Or.inr ⟨rfl, rfl⟩)
      (by decide)⟩

/-- C6: the parsed-stake validation of the create-bet screen in
`src/unnamed/part_007` accepts `s` with a loaded balance `b` exactly when
`0 < s ∧ s ≤ 25 ∧ s ≤ b` — in particular it accepts a stake of exactly 25
with sufficient balance — while the variant in `src/unnamed/part_008`
rejects a stake of exactly 25 (its `stakeAmount >= 25` check contradicts
its own "Maximum stake allowed is 25 units" message). -/
theorem stake_validation_max_25 :
    (∀ s b : ℚ, stakeValid_part007 s (some b) = true ↔ (0 < s ∧ s ≤ 25 ∧ s ≤ b)) ∧
    stakeValid_part007 25 (some 100) = true ∧
    stakeValid_part008 25 (some 100) = false := by
  refine ⟨fun s b => ?_, by decide, by decide⟩
  unfold stakeValid_part007
  split_ifs with h1 h2
  · simp only [Bool.false_eq_true, false_iff]
    intro hcon
    exact absurd hcon.1 (not_lt.mpr h1)
  · simp only [Bool.false_eq_true, false_iff]
    intro hcon
    exact absurd h2 (not_lt.mpr hcon.2.1)
  · push_neg at h1 h2
    simp only [Bool.not_eq_true', decide_eq_false_iff_not, not_lt]
    exact ⟨fun hb => ⟨h1, h2, hb⟩, fun hcon => hcon.2.2⟩

/-- Auxiliary for C7: folding the pot-accumulation step of `loadBets`
from any initial map adds the sum of the matching stakes
to the initial entry. -/
theorem buildPotMap_foldl (wagers : List Wager) (m : String → ℚ) (betId : String) :
    wagers.foldl
      (fun potMap w => fun k => if k = w.bet_id then potMap w.bet_id + w.stake
        else potMap k)
      m betId
    = m betId + ((wagers.filter (fun w => w.bet_id = betId)).map Wager.stake).sum := by
  induction wagers generalizing m with
  | nil => simp
  | cons w ws ih =>
    rw [List.foldl_cons, ih]
    by_cases h : w.bet_id = betId
    · rw [List.filter_cons_of_pos (by simpa using h), List.map_cons, List.sum_cons,
        if_pos h.symm, h]
      ring
    · rw [List.filter_cons_of_neg (by simpa using h),
        if_neg (fun hh => h hh.symm)]

/-- C7: the pot `loadBets` computes for a bet equals the sum of the stakes
of all wagers whose `bet_id` equals that bet's id, and is 0 when the bet
has no wagers. -/
theorem pot_equals_sum_of_stakes (wagers : List Wager) (betId : String) :
    buildPotMap wagers betId
      = ((wagers.filter (fun w => w.bet_id = betId)).map Wager.stake).sum ∧
    (wagers.filter (fun w => w.bet_id = betId) = [] →
      buildPotMap wagers betId = 0) := by
  have h1 : buildPotMap wagers betId
      = ((wagers.filter (fun w => w.bet_id = betId)).map Wager.stake).sum := by
    have h := buildPotMap_foldl wagers (fun _ => 0) betId
    simpa [buildPotMap] using h
  refine ⟨h1, fun hf => ?_⟩
  rw [h1, hf]
  simp

/-- Three wagers: two on bet `pb1` (stakes 5 and 3), one on `pb2`. -/
def potWagers : List Wager :=
  [ { id := "pw1", bet_id := "pb1", user_id := "u1", selection := "A",
      stake := 5, payout := none, status := .pending },
    { id := "pw2", bet_id := "pb1", user_id := "u2", selection := "B",
      stake := 3, payout := none, status := .pending },
    { id := "pw3", bet_id := "pb2", user_id := "u3", selection := "A",
      stake := 4, payout := none, status := .pending } ]

/-- Witness for C7 at a concrete wager list: the `pb1` pot is 5 + 3 and a
bet with no wagers has pot 0. -/
theorem pot_equals_sum_of_stakes_witness :
    buildPotMap potWagers "pb0" = 0 ∧ buildPotMap potWagers "pb1" = 8 :=
  ⟨(pot_equals_sum_of_stakes potWagers "pb0").2 (by decide),
   by rw [(pot_equals_sum_of_stakes potWagers "pb1").1]; simp [potWagers]; norm_num⟩

/-- C10: in a commissioner miss on a non-target-proximity bet whose
options list holds no option different from the commissioner's selection,
the submitted winner falls back to the head of the options list — equal to
the commissioner's own selection when the list is non-empty — and the
request is still sent rather than failing. -/
theorem commissioner_miss_fallback_first_option
    (bet : Bet) (st : ModalState) (w : Wager)
    (hc : st.isCommissioner = true)
    (hid : jsTruthyStr st.commissionerId = true)
    (hw : st.commissionerWager = some w)
    (hd : st.didHit = some false)
    (ht : ¬(bet.type = BetType.targetProximity))
    (hall : ∀ o ∈ bet.options, o = w.selection) :
    ∃ req, handleSubmit bet st = some req ∧ req.winner = bet.options.head? ∧
      (bet.options ≠ [] → req.winner = some w.selection) := by
  have hv : validationPasses bet st = true := by
    simp [validationPasses, hc, hid, hw, hd]
  have hfind : bet.options.find? (fun opt => !(opt = w.selection)) = none := by
    rw [List.find?_eq_none]
    intro o ho
    simp [hall o ho]
  have hcw : computeWinner bet st = some bet.options.head? := by
    simp [computeWinner, hc, hw, hd, ht, hfind, jsOrElse]
  rcases hr : handleSubmit bet st with _ | req
  · exfalso
    rw [handleSubmit, if_pos hv, hcw] at hr
    exact absurd hr (by simp)
  · refine ⟨req, rfl, ?_, ?_⟩
    · exact handleSubmit_winner_eq bet st req bet.options.head? hv hcw hr
    · intro hne
      rw [handleSubmit_winner_eq bet st req bet.options.head? hv hcw hr]
      rcases hb : bet.options with _ | ⟨a, l⟩
      · exact absurd hb hne
      · have ha : a = w.selection := hall a (by rw [hb]; exact List.mem_cons_self a l)
        rw [List.head?_cons, ha]

/-- A moneyline bet whose two options are both the commissioner's
selection. -/
def betC10 : Bet :=
  { id := "b10", creator_id := "u1", type := .moneyline,
    options := ["A", "A"], stake := 5, status := .open_ }

/-- Commissioner modal state with `didHit = false` for `betC10`. -/
def stC10 : ModalState :=
  { isCommissioner := true, commissionerId := some "comm",
    commissionerWager := some wC2, selectedWinner := "",
    didHit := some false, isFinished := false,
    useCommissionerOverride := false, targetResult := "", note := "" }

/-- The request `handleSubmit betC10 stC10` sends. -/
def reqC10 : ResolveRequest :=
  { winner := some "A", mode := .manual,
    did_hit := some false, is_finished := true, note := none }

/-- Witness for C10 at a concrete all-same-option miss. -/
theorem commissioner_miss_fallback_first_option_witness :
    handleSubmit betC10 stC10 = some reqC10 ∧
    reqC10.winner = betC10.options.head? ∧
    reqC10.winner = some wC2.selection := by
  obtain ⟨req, h1, h2, h3⟩ :=
    commissioner_miss_fallback_first_option betC10 stC10 wC2 rfl (by decide) rfl rfl
      (by decide) (by decide)
  have he : handleSubmit betC10 stC10 = some reqC10 := by decide
  have hreq : req = reqC10 := Option.some.inj (h1.symm.trans he)
  subst hreq
  exact ⟨he, h2, h3 (by decide)⟩

end Mchacks
